import Mathlib

/-!
Shallow embedding of the metrics translation and aggregation pipeline of
snap-plugin-collector-prometheus (file prometheus/prometheus.go), together
with proofs about the claims of its specification.

Modelling conventions:
* float64 values are modelled as rationals; a summary quantile value is an
  `Option` rational where `none` models NaN (the only place the code tests
  for NaN is `math.IsNaN` on quantile values).
* a Go `map` is modelled as an association list in which insertion replaces
  the value of an existing key in place and otherwise appends the binding at
  the end.  Go does not specify (and deliberately randomizes) the order of a
  `range` loop over a map; the one place the code ranges over a map whose
  order is observable (the summary map in the SUMMARY case of
  `_collectMetrics`) therefore takes an explicit reordering parameter `ord`,
  constrained to a permutation in the theorems that need it.
* fallible collaborators (endpoint configuration, HTTP download, exposition
  parsing) are modelled as `Except`-valued function parameters; the HTTP
  transport itself and the expfmt text parser are external to the repository
  and stay abstract.
* `time.Now()` is passed as an explicit `now` parameter; it is only copied
  into records.
-/

namespace SnapProm

/-- Metric family types of the Prometheus client data model
(`dto.MetricType`); COUNTER is first because it is the zero value that the
getters of a nil protobuf message return. -/
inductive MetricType where
  | COUNTER
  | GAUGE
  | SUMMARY
  | UNTYPED
  | HISTOGRAM
deriving DecidableEq, Repr

/-- One label of a sample (`dto.LabelPair`). -/
structure LabelPair where
  name : String
  value : String
deriving DecidableEq, Repr

/-- One quantile of a summary (`dto.Quantile`): the quantile fraction and
its estimated value; `none` models a NaN value. -/
structure Quantile where
  quantile : ℚ
  value : Option ℚ
deriving DecidableEq, Repr

/-- Summary payload of a sample (`dto.Summary`). -/
structure SummaryData where
  sampleCount : ℕ
  sampleSum : ℚ
  quantile : List Quantile
deriving DecidableEq, Repr

/-- One labeled sample (`dto.Metric`).  The fields carry the values the
protobuf getters return (zero values when the payload is absent). -/
structure Metric where
  label : List LabelPair
  gauge : ℚ
  counter : ℚ
  summary : SummaryData
deriving DecidableEq, Repr

/-- One named metric family (`dto.MetricFamily`). -/
structure MetricFamily where
  name : String
  help : String
  type : MetricType
  metric : List Metric
deriving DecidableEq, Repr

/-- Getters of a nil `*dto.MetricFamily` return the protobuf zero values:
empty name and help, type COUNTER (enum value 0), no samples.  This is what
`metricFamilies[key]` yields for a key absent from the parsed snapshot. -/
def nilFamily : MetricFamily :=
  { name := "", help := "", type := .COUNTER, metric := [] }

/-- Parsed snapshot: the mapping from family name to family record produced
by the expfmt parser. -/
abbrev Snapshot := List (String × MetricFamily)

/-- Go map insertion `m[k] = v`: replace the binding of an existing key in
place, otherwise append the new binding. -/
def mapInsert {α : Type} (m : List (String × α)) (k : String) (v : α) :
    List (String × α) :=
  match m with
  | [] => [(k, v)]
  | (k', v') :: rest =>
    if k == k' then (k, v) :: rest else (k', v') :: mapInsert rest k v

/-- Helper of `containsSubstr`: does `pat` occur as a contiguous sublist? -/
def listContains (pat : List Char) : List Char → Bool
  | [] => pat.isPrefixOf []
  | c :: rest => pat.isPrefixOf (c :: rest) || listContains pat rest

/-- Model of `strings.Contains s pat`. -/
def containsSubstr (s pat : String) : Bool :=
  listContains pat.data s.data

/-- Spec-side notion used by claim C9: does `s` end with `pat`?  (The code
itself never tests for a suffix; it uses `strings.Contains`.) -/
def strEndsWith (s pat : String) : Bool :=
  pat.data.isSuffixOf s.data

/-- Go `int(q*100)` on the quantile fraction: multiply by 100 and truncate
toward zero. -/
def truncPercent (q : ℚ) : ℤ :=
  Int.tdiv (q * 100).num ((q * 100).den : ℤ)

/-- Tag key of a quantile record: `fmt.Sprintf("quantile_%d", int(q*100))`. -/
def quantKey (q : ℚ) : String :=
  "quantile_" ++ toString (truncPercent q)

/-- Model of `getTagsOfMetric`: build a tag map from the labels of a sample
(a later duplicate label name overwrites an earlier one, as in a Go map). -/
def getTagsOfMetric (mItem : Metric) : List (String × String) :=
  mItem.label.foldl (fun tags l => mapInsert tags l.name l.value) []

/-- One loop step of `processSummaryMetric`: a non-NaN quantile is written
under its `quantile_<int percent>` key, a NaN quantile is skipped. -/
def summaryStep (s : List (String × ℚ)) (q : Quantile) : List (String × ℚ) :=
  match q.value with
  | some v => mapInsert s (quantKey q.quantile) v
  | none => s

/-- Model of `processSummaryMetric`: the summary map holds the count, the
sum, and one entry per non-NaN quantile keyed by truncated integer percent.
The Go function also returns an error which is always nil, so the error
component is omitted and the caller's never-taken `continue` branch is not
modelled. -/
def processSummaryMetric (mItem : Metric) : List (String × ℚ) :=
  mItem.summary.quantile.foldl summaryStep
    (mapInsert (mapInsert [] "count" (mItem.summary.sampleCount : ℚ))
      "sum" mItem.summary.sampleSum)

/-- Go map read `t[k]` on a string-valued map: the zero value `""` when the
key is absent. -/
def tagGet (t : List (String × String)) (k : String) : String :=
  (t.lookup k).getD ""

/-- Output record (`metricWithType`, that is `plugin.Metric` plus the family
type).  `data` is the float64 stored in the `Data` interface field. -/
structure MetricRecord where
  ns : List String
  timestamp : ℕ
  description : String
  version : ℤ
  unit : String
  data : ℚ
  tags : List (String × String)
  type : MetricType
deriving DecidableEq, Repr

/-- Task configuration (`plugin.Config`), of which only string values are
consumed. -/
abbrev Config := List (String × String)

/-- Model of `plugin.Config.GetString`: an error when the key is absent. -/
def configGetString (cfg : Config) (key : String) : Except String String :=
  match cfg.lookup key with
  | some v => .ok v
  | none => .error ("config key missing: " ++ key)

/-- A requested metric type (`plugin.Metric` as input): its namespace and
its task configuration. -/
structure MetricTypeReq where
  ns : List String
  config : Config
deriving DecidableEq, Repr

/-- Model of `HTTPMetricsDownloader.GetEndpoint`: read the configured
endpoint address and append the suffix `/metrics` unless the address already
CONTAINS `/metrics` as a substring. -/
def GetEndpoint (config : Config) : Except String String :=
  match configGetString config "endpoint" with
  | .error e => .error e
  | .ok address =>
    if containsSubstr address "/metrics" then .ok address
    else .ok (address ++ "/metrics")

/-- The `MetricsDownloader` interface: endpoint resolution and raw download.
The HTTP transport is an external collaborator, so the download is an
abstract `Except`-valued function from the address to the response body. -/
structure Downloader where
  getEndpoint : Config → Except String String
  getMetricsReader : String → Except String String

/-- The collector: its downloader and the external expfmt text parser
(`parser.TextToMetricFamilies`), both abstract collaborators. -/
structure PrometheusCollector where
  downloader : Downloader
  textParser : String → Except String Snapshot

/-- Model of `parseMetrics`: delegate to the external parser.  On failure Go
returns an empty map alongside the error; the caller only consults the
error, which `Except` captures. -/
def parseMetrics (p : String → Except String Snapshot) (body : String) :
    Except String Snapshot :=
  p body

/-- Model of the `collect` method: download, then parse, wrapping either
failure in a message. -/
def collect (c : PrometheusCollector) (endpoint : String) :
    Except String Snapshot :=
  match c.downloader.getMetricsReader endpoint with
  | .error e => .error ("Unable to download metrics: " ++ e)
  | .ok body =>
    match parseMetrics c.textParser body with
    | .error e => .error ("Unable to parse metrics: " ++ e)
    | .ok metricFamilies => .ok metricFamilies

/-- Reordering of the summary map before it is ranged over, modelling the
unspecified iteration order of a Go map.  Theorems quantify over it or
constrain it to a permutation. -/
abbrev SummaryOrder := List (String × ℚ) → List (String × ℚ)

/-- Family looked up for a requested identifier: the last namespace segment
is the family name; an absent family yields the nil-family zero values. -/
def familyFor (fams : Snapshot) (mt : MetricTypeReq) : MetricFamily :=
  (fams.lookup (mt.ns.getLastD "")).getD nilFamily

/-- The record skeleton built once per requested identifier before the
sample loop (`metricWithType` with namespace, timestamp, description,
version and family type; unit, data and tags still at their zero values). -/
def baseRecord (fams : Snapshot) (now : ℕ) (mt : MetricTypeReq) :
    MetricRecord :=
  { ns := mt.ns
    timestamp := now
    description := (familyFor fams mt).help
    version := 1
    unit := ""
    data := 0
    tags := []
    type := (familyFor fams mt).type }

/-- The switch body of the sample loop of `_collectMetrics`: decode one
sample of a family into zero or more records.  UNTYPED and HISTOGRAM have no
case and append nothing. -/
def decodeSample (ord : SummaryOrder) (fam : MetricFamily)
    (base : MetricRecord) (mItem : Metric) : List MetricRecord :=
  match fam.type with
  | .GAUGE =>
    [{ base with
        unit := if containsSubstr fam.name "bytes" then "B" else base.unit
        data := mItem.gauge
        tags := getTagsOfMetric mItem }]
  | .COUNTER =>
    [{ base with data := mItem.counter, tags := getTagsOfMetric mItem }]
  | .SUMMARY =>
    (ord (processSummaryMetric mItem)).map (fun kv =>
      { base with
          data := kv.2
          tags := mapInsert (getTagsOfMetric mItem) "summary" kv.1 })
  | _ => []

/-- The per-identifier buffer of decoded records, in sample order. -/
def sampleRecords (ord : SummaryOrder) (fams : Snapshot) (now : ℕ)
    (mt : MetricTypeReq) : List MetricRecord :=
  (familyFor fams mt).metric.flatMap
    (decodeSample ord (familyFor fams mt) (baseRecord fams now mt))

/-- One step of the aggregation loop over `MultiGroupsMetricList`: when the
configured name matches the family, append the type-specific total records
to the buffer. -/
def totalStep (fam : MetricFamily) (base : MetricRecord)
    (buf : List MetricRecord) (v : String) : List MetricRecord :=
  if v = fam.name then
    match fam.type with
    | .COUNTER =>
      buf ++ [{ base with
                  data := (buf.map (fun r => r.data)).sum
                  tags := mapInsert [] "total" "TOTAL" }]
    | .SUMMARY =>
      buf ++ [{ base with
                  data := ((buf.filter
                      (fun r => tagGet r.tags "summary" == "count")).map
                      (fun r => r.data)).sum
                  tags := mapInsert (mapInsert [] "total" "TOTAL")
                      "summary" "count" },
              { base with
                  data := ((buf.filter
                      (fun r => tagGet r.tags "summary" == "sum")).map
                      (fun r => r.data)).sum
                  tags := mapInsert (mapInsert [] "total" "TOTAL")
                      "summary" "sum" }]
    | _ => buf
  else buf

/-- The aggregation loop of `_collectMetrics` over the configured
multi-group name list.  Modelled from the spec: the contents of
`MultiGroupsMetricList` live in a repository file that is not available, so
the configured set of metric-family names is an explicit parameter. -/
def aggregateTotals (fam : MetricFamily) (base : MetricRecord)
    (mgl : List String) (buffer : List MetricRecord) : List MetricRecord :=
  mgl.foldl (totalStep fam base) buffer

/-- Processing of one requested identifier: decode every sample of the
matching family, then run the aggregation loop on the buffer. -/
def processRequest (ord : SummaryOrder) (fams : Snapshot) (mgl : List String)
    (now : ℕ) (mt : MetricTypeReq) : List MetricRecord :=
  aggregateTotals (familyFor fams mt) (baseRecord fams now mt) mgl
    (sampleRecords ord fams now mt)

/-- Result of one collection pass, instrumented with how often each external
collaborator was invoked (endpoint resolution, download, parse). -/
structure PassResult where
  records : List MetricRecord
  error : Option String
  endpointCalls : ℕ
  downloadCalls : ℕ
  parseCalls : ℕ
deriving Repr

/-- The error message of an empty requested-identifier list. -/
def emptyMtsErr : String :=
  "array of metric type is empty\nPlease check GetMetricTypes()"

/-- Model of `_collectMetrics`: reject an empty request list, resolve the
endpoint, download and parse the snapshot (degrading a failure there to zero
records and nil error), then process every requested identifier. -/
def _collectMetrics (c : PrometheusCollector) (ord : SummaryOrder)
    (mgl : List String) (now : ℕ) (mts : List MetricTypeReq) : PassResult :=
  match mts with
  | [] =>
    { records := [], error := some emptyMtsErr
      endpointCalls := 0, downloadCalls := 0, parseCalls := 0 }
  | mt0 :: rest =>
    match c.downloader.getEndpoint mt0.config with
    | .error e =>
      { records := [], error := some ("Unable to get endpoint: " ++ e)
        endpointCalls := 1, downloadCalls := 0, parseCalls := 0 }
    | .ok endpoint =>
      let pCalls : ℕ :=
        match c.downloader.getMetricsReader endpoint with
        | .ok _ => 1
        | .error _ => 0
      match collect c endpoint with
      | .error _ =>
        { records := [], error := none
          endpointCalls := 1, downloadCalls := 1, parseCalls := pCalls }
      | .ok metricFamilies =>
        { records := (mt0 :: rest).flatMap
            (processRequest ord metricFamilies mgl now)
          error := none
          endpointCalls := 1, downloadCalls := 1, parseCalls := pCalls }

/-- Result of `CollectMetrics` as seen by the host: on failure the original
request list is echoed back with the error, on success the cached records
are returned. -/
inductive CollectOutcome where
  | failure (echoed : List MetricTypeReq) (err : String)
  | success (records : List MetricRecord)
deriving Repr

/-- Model of `CollectMetrics`: run the pass; on error return the input list
and the error; otherwise run the cache hook `_cache` (defined in a
repository file that is not available, hence an abstract parameter) and
return its result or echo the input on its failure. -/
def CollectMetrics (c : PrometheusCollector)
    (cacheFn : List MetricRecord → Except String (List MetricRecord))
    (ord : SummaryOrder) (mgl : List String) (now : ℕ)
    (mts : List MetricTypeReq) : CollectOutcome :=
  let r := _collectMetrics c ord mgl now mts
  match r.error with
  | some e => .failure mts e
  | none =>
    match cacheFn r.records with
    | .error e => .failure mts e
    | .ok res => .success res

/-- Spec-side helper: the value of the last quantile in sample order whose
value is not NaN and whose formatted key equals `k`, if any. -/
def projStep (k : String) (o : Option ℚ) (q : Quantile) : Option ℚ :=
  match q.value with
  | some v => if quantKey q.quantile == k then some v else o
  | none => o

/-- Spec-side helper: last non-NaN quantile value written under key `k`. -/
def lastQuantWith (qs : List Quantile) (k : String) : Option ℚ :=
  qs.foldl (projStep k) none

/-! ### Association-list lemmas for the Go map model -/

/-- Keys of a well-formed Go map are pairwise distinct. -/
def NodupKeys {α : Type} (m : List (String × α)) : Prop :=
  m.Pairwise (fun a b => a.1 ≠ b.1)

theorem lookup_cons {α : Type} (k k' : String) (v : α)
    (rest : List (String × α)) :
    List.lookup k ((k', v) :: rest) =
      if k = k' then some v else List.lookup k rest := by
  by_cases h : k = k'
  · have hb : (k == k') = true := beq_iff_eq.mpr h
    simp [List.lookup, hb, h]
  · have hb : (k == k') = false := by simp [h]
    simp [List.lookup, hb, h]

theorem lookup_mapInsert_self {α : Type} (m : List (String × α)) (k : String)
    (v : α) : (mapInsert m k v).lookup k = some v := by
  induction m with
  | nil => simp [mapInsert, lookup_cons]
  | cons p rest ih =>
    obtain ⟨k', v'⟩ := p
    by_cases hk : k = k'
    · subst hk; simp [mapInsert, lookup_cons]
    · simp [mapInsert, lookup_cons, hk, ih]

theorem lookup_mapInsert {α : Type} (m : List (String × α)) (k : String)
    (v : α) (k' : String) :
    (mapInsert m k v).lookup k' = if k' = k then some v else m.lookup k' := by
  induction m with
  | nil =>
    by_cases h : k' = k <;> simp [mapInsert, lookup_cons, h]
  | cons p rest ih =>
    obtain ⟨k1, v1⟩ := p
    by_cases hk : k = k1
    · subst hk
      by_cases h2 : k' = k <;> simp [mapInsert, lookup_cons, h2]
    · by_cases h2 : k' = k1 <;> by_cases h3 : k' = k <;>
        simp [mapInsert, lookup_cons, hk, h2, h3, ih]
      · exact absurd (h3 ▸ h2 : k = k1) hk
      · rw [if_neg (fun e => hk e.symm)]
      · exact lookup_mapInsert_self rest k v

theorem mem_mapInsert {α : Type} {m : List (String × α)} {k : String} {v : α}
    {p : String × α} (h : p ∈ mapInsert m k v) : p = (k, v) ∨ p ∈ m := by
  induction m with
  | nil => simpa [mapInsert] using h
  | cons q rest ih =>
    obtain ⟨k', v'⟩ := q
    by_cases hk : k = k'
    · subst hk
      simp only [mapInsert, beq_self_eq_true, if_pos, List.mem_cons] at h
      rcases h with h | h
      · exact Or.inl h
      · exact Or.inr (List.mem_cons_of_mem _ h)
    · simp only [mapInsert, beq_iff_eq, hk, if_false, List.mem_cons] at h
      rcases h with h | h
      · exact Or.inr (by simp [h])
      · rcases ih h with h2 | h2
        · exact Or.inl h2
        · exact Or.inr (List.mem_cons_of_mem _ h2)

theorem nodupKeys_mapInsert {α : Type} {m : List (String × α)}
    (h : NodupKeys m) (k : String) (v : α) : NodupKeys (mapInsert m k v) := by
  induction m with
  | nil => simp [mapInsert, NodupKeys]
  | cons q rest ih =>
    obtain ⟨k', v'⟩ := q
    rw [NodupKeys, List.pairwise_cons] at h
    obtain ⟨h1, h2⟩ := h
    by_cases hk : k = k'
    · subst hk
      simp only [mapInsert, beq_self_eq_true, if_pos]
      rw [NodupKeys, List.pairwise_cons]
      exact ⟨h1, h2⟩
    · simp only [mapInsert, beq_iff_eq, hk, if_false]
      rw [NodupKeys, List.pairwise_cons]
      refine ⟨?_, ih h2⟩
      intro b hb
      rcases mem_mapInsert hb with hb | hb
      · rw [hb]; exact fun e => hk e.symm
      · exact h1 b hb

theorem mapInsert_mapInsert_same {α : Type} (m : List (String × α))
    (k : String) (v w : α) :
    mapInsert (mapInsert m k v) k w = mapInsert m k w := by
  induction m with
  | nil => simp [mapInsert]
  | cons q rest ih =>
    obtain ⟨k', v'⟩ := q
    by_cases hk : k = k' <;> simp [mapInsert, hk, ih]

theorem filter_key_eq_lookup {α : Type} {m : List (String × α)}
    (h : NodupKeys m) (k : String) :
    (m.filter (fun p => p.1 == k)).map (fun p => p.2) = (m.lookup k).toList := by
  induction m with
  | nil => simp [List.lookup]
  | cons q rest ih =>
    obtain ⟨k', v'⟩ := q
    rw [NodupKeys, List.pairwise_cons] at h
    obtain ⟨h1, h2⟩ := h
    by_cases hk : k' = k
    · subst hk
      have hrest : rest.filter (fun p => p.1 == k') = [] := by
        rw [List.filter_eq_nil_iff]
        intro a ha
        simp only [beq_iff_eq]
        exact fun e => (h1 a ha) e.symm
      simp [lookup_cons, hrest]
    · have hk2 : ¬ (k = k') := fun e => hk e.symm
      simp [lookup_cons, hk, hk2, ih h2]

/-! ### Lemmas about the summary map built by processSummaryMetric -/

theorem truncPercent_eq_floor (q : ℚ) (h : (0 : ℚ) ≤ q * 100) :
    truncPercent q = ⌊q * 100⌋ := by
  unfold truncPercent
  rw [Rat.floor_def]
  exact Int.tdiv_eq_ediv (Rat.num_nonneg.mpr h) (Int.ofNat_nonneg _)

theorem quantKey_ne_count (q : ℚ) : quantKey q ≠ "count" := by
  intro h
  unfold quantKey at h
  have hd : ("quantile_" ++ toString (truncPercent q)).data = "count".data := by
    rw [h]
  rw [String.data_append] at hd
  have hlen : "quantile_".data.length + (toString (truncPercent q)).data.length
      = "count".data.length := by
    rw [← List.length_append, hd]
  have h9 : "quantile_".data.length = 9 := rfl
  have h5 : "count".data.length = 5 := rfl
  omega

theorem quantKey_ne_sum (q : ℚ) : quantKey q ≠ "sum" := by
  intro h
  unfold quantKey at h
  have hd : ("quantile_" ++ toString (truncPercent q)).data = "sum".data := by
    rw [h]
  rw [String.data_append] at hd
  have hlen : "quantile_".data.length + (toString (truncPercent q)).data.length
      = "sum".data.length := by
    rw [← List.length_append, hd]
  have h9 : "quantile_".data.length = 9 := rfl
  have h3 : "sum".data.length = 3 := rfl
  omega

theorem nodupKeys_foldl_summaryStep (qs : List Quantile) :
    ∀ s, NodupKeys s → NodupKeys (qs.foldl summaryStep s) := by
  induction qs with
  | nil => intro s hs; exact hs
  | cons q rest ih =>
    intro s hs
    rw [List.foldl_cons]
    apply ih
    unfold summaryStep
    cases q.value with
    | none => exact hs
    | some v => exact nodupKeys_mapInsert hs _ _

theorem nodupKeys_processSummaryMetric (mItem : Metric) :
    NodupKeys (processSummaryMetric mItem) := by
  unfold processSummaryMetric
  apply nodupKeys_foldl_summaryStep
  have hbase : mapInsert (mapInsert ([] : List (String × ℚ)) "count"
      ((mItem.summary.sampleCount : ℚ))) "sum" mItem.summary.sampleSum
      = [("count", ((mItem.summary.sampleCount : ℚ))),
         ("sum", mItem.summary.sampleSum)] := rfl
  rw [hbase, NodupKeys]
  refine List.Pairwise.cons ?_ (List.Pairwise.cons (by simp) List.Pairwise.nil)
  intro b hb
  simp only [List.mem_singleton] at hb
  rw [hb]
  simp

theorem lookup_foldl_summaryStep (qs : List Quantile) (k : String) :
    ∀ s, (qs.foldl summaryStep s).lookup k = qs.foldl (projStep k) (s.lookup k) := by
  induction qs with
  | nil => intro s; rfl
  | cons q rest ih =>
    intro s
    rw [List.foldl_cons, List.foldl_cons, ih]
    congr 1
    unfold summaryStep projStep
    cases q.value with
    | none => rfl
    | some v =>
      rw [lookup_mapInsert]
      by_cases h : quantKey q.quantile = k
      · have hb : (quantKey q.quantile == k) = true := beq_iff_eq.mpr h
        simp [h, hb]
      · have h2 : ¬ (k = quantKey q.quantile) := fun e => h e.symm
        have hb : (quantKey q.quantile == k) = false := by simp [h]
        simp [h2, hb]

theorem foldl_projStep_absorb (qs : List Quantile) (k : String) :
    ∀ o : Option ℚ, qs.foldl (projStep k) o =
      match qs.foldl (projStep k) none with
      | some v => some v
      | none => o := by
  induction qs with
  | nil => intro o; rfl
  | cons q rest ih =>
    intro o
    rw [List.foldl_cons, List.foldl_cons]
    cases hv : q.value with
    | none =>
      simp only [projStep, hv]
      exact ih o
    | some v =>
      by_cases h : (quantKey q.quantile == k) = true
      · simp only [projStep, hv, h, if_pos]
        rw [ih (some v)]
        cases rest.foldl (projStep k) none <;> rfl
      · have hb : (quantKey q.quantile == k) = false := by
          revert h; cases quantKey q.quantile == k <;> simp
        simp only [projStep, hv, hb, Bool.false_eq_true, if_false]
        exact ih o

theorem lastQuantWith_eq_none (qs : List Quantile) (k : String)
    (h : ∀ f : ℚ, quantKey f ≠ k) : lastQuantWith qs k = none := by
  unfold lastQuantWith
  induction qs with
  | nil => rfl
  | cons q rest ih =>
    rw [List.foldl_cons]
    have hstep : projStep k none q = none := by
      unfold projStep
      cases q.value with
      | none => rfl
      | some v => simp [h q.quantile]
    rw [hstep]
    exact ih

theorem processSummary_lookup_count (mItem : Metric) :
    (processSummaryMetric mItem).lookup "count"
      = some ((mItem.summary.sampleCount : ℚ)) := by
  unfold processSummaryMetric
  rw [lookup_foldl_summaryStep]
  have hbase : (mapInsert (mapInsert ([] : List (String × ℚ)) "count"
      ((mItem.summary.sampleCount : ℚ))) "sum"
      mItem.summary.sampleSum).lookup "count"
      = some ((mItem.summary.sampleCount : ℚ)) := rfl
  rw [hbase, foldl_projStep_absorb]
  have hlast : mItem.summary.quantile.foldl (projStep "count") none = none :=
    lastQuantWith_eq_none mItem.summary.quantile "count" quantKey_ne_count
  rw [hlast]

theorem processSummary_lookup_sum (mItem : Metric) :
    (processSummaryMetric mItem).lookup "sum"
      = some mItem.summary.sampleSum := by
  unfold processSummaryMetric
  rw [lookup_foldl_summaryStep]
  have hbase : (mapInsert (mapInsert ([] : List (String × ℚ)) "count"
      ((mItem.summary.sampleCount : ℚ))) "sum"
      mItem.summary.sampleSum).lookup "sum"
      = some mItem.summary.sampleSum := rfl
  rw [hbase, foldl_projStep_absorb]
  have hlast : mItem.summary.quantile.foldl (projStep "sum") none = none :=
    lastQuantWith_eq_none mItem.summary.quantile "sum" quantKey_ne_sum
  rw [hlast]

theorem processSummary_lookup (mItem : Metric) (k : String)
    (hc : k ≠ "count") (hs : k ≠ "sum") :
    (processSummaryMetric mItem).lookup k
      = lastQuantWith mItem.summary.quantile k := by
  unfold processSummaryMetric
  rw [lookup_foldl_summaryStep]
  have hbase : (mapInsert (mapInsert ([] : List (String × ℚ)) "count"
      ((mItem.summary.sampleCount : ℚ))) "sum"
      mItem.summary.sampleSum).lookup k = none := by
    have h1 : mapInsert (mapInsert ([] : List (String × ℚ)) "count"
        ((mItem.summary.sampleCount : ℚ))) "sum" mItem.summary.sampleSum
        = [("count", ((mItem.summary.sampleCount : ℚ))),
           ("sum", mItem.summary.sampleSum)] := rfl
    rw [h1, lookup_cons, if_neg hc, lookup_cons, if_neg hs]
    rfl
  rw [hbase, foldl_projStep_absorb]
  unfold lastQuantWith
  cases mItem.summary.quantile.foldl (projStep k) none <;> rfl

/-! ### Record-level lemmas for summary decoding -/

theorem decodeSummary_filter (ord : SummaryOrder) (fam : MetricFamily)
    (base : MetricRecord) (mItem : Metric) (hty : fam.type = .SUMMARY)
    (hord : (ord (processSummaryMetric mItem)).Perm (processSummaryMetric mItem))
    (k : String) :
    ((decodeSample ord fam base mItem).filter
        (fun r => tagGet r.tags "summary" == k)).map (fun r => r.data)
      = ((processSummaryMetric mItem).lookup k).toList := by
  unfold decodeSample
  rw [hty]
  have htag : ∀ kv : String × ℚ,
      tagGet (mapInsert (getTagsOfMetric mItem) "summary" kv.1) "summary"
        = kv.1 := by
    intro kv
    unfold tagGet
    rw [lookup_mapInsert_self]
    rfl
  rw [List.filter_map, List.map_map]
  have hpred : ((ord (processSummaryMetric mItem)).filter
        ((fun r => tagGet r.tags "summary" == k) ∘ (fun kv : String × ℚ =>
          { base with
              data := kv.2
              tags := mapInsert (getTagsOfMetric mItem) "summary" kv.1 })))
      = (ord (processSummaryMetric mItem)).filter (fun kv => kv.1 == k) := by
    apply List.filter_congr
    intro kv _
    simp [Function.comp, htag kv]
  rw [hpred]
  have hmapd : ((ord (processSummaryMetric mItem)).filter
        (fun kv => kv.1 == k)).map ((fun r : MetricRecord => r.data) ∘
          (fun kv : String × ℚ =>
            { base with
                data := kv.2
                tags := mapInsert (getTagsOfMetric mItem) "summary" kv.1 }))
      = ((ord (processSummaryMetric mItem)).filter
          (fun kv => kv.1 == k)).map (fun kv => kv.2) := by
    apply List.map_congr_left
    intro kv _
    rfl
  rw [hmapd]
  have hperm : (((ord (processSummaryMetric mItem)).filter
        (fun kv => kv.1 == k)).map (fun kv : String × ℚ => kv.2)).Perm
      (((processSummaryMetric mItem).filter
        (fun kv => kv.1 == k)).map (fun kv : String × ℚ => kv.2)) :=
    (hord.filter _).map _
  rw [filter_key_eq_lookup (nodupKeys_processSummaryMetric mItem) k] at hperm
  cases hcase : (processSummaryMetric mItem).lookup k with
  | none =>
    rw [hcase] at hperm
    simpa using hperm.eq_nil
  | some v =>
    rw [hcase] at hperm
    simpa using List.perm_singleton.mp (by simpa using hperm)

theorem decodeSummary_length (ord : SummaryOrder) (fam : MetricFamily)
    (base : MetricRecord) (mItem : Metric) (hty : fam.type = .SUMMARY) :
    (decodeSample ord fam base mItem).length
      = (ord (processSummaryMetric mItem)).length := by
  unfold decodeSample
  rw [hty]
  exact List.length_map _ _

/-! ### Lemmas about the aggregation loop -/

theorem totalStep_no_match (fam : MetricFamily) (base : MetricRecord)
    (buf : List MetricRecord) (v : String) (h : v ≠ fam.name) :
    totalStep fam base buf v = buf := by
  unfold totalStep
  rw [if_neg h]

theorem totalStep_gauge (fam : MetricFamily) (base : MetricRecord)
    (buf : List MetricRecord) (v : String) (hty : fam.type = .GAUGE) :
    totalStep fam base buf v = buf := by
  unfold totalStep
  rw [hty]
  by_cases hv : v = fam.name
  · rw [if_pos hv]
  · rw [if_neg hv]

theorem foldl_totalStep_of_not_mem (fam : MetricFamily) (base : MetricRecord)
    (mgl : List String) (h : fam.name ∉ mgl) (buffer : List MetricRecord) :
    mgl.foldl (totalStep fam base) buffer = buffer := by
  induction mgl generalizing buffer with
  | nil => rfl
  | cons v rest ih =>
    rw [List.foldl_cons]
    have hv : v ≠ fam.name := by
      intro e
      exact h (by rw [e]; exact List.mem_cons_self _ _)
    rw [totalStep_no_match fam base buffer v hv]
    exact ih (fun hm => h (List.mem_cons_of_mem _ hm)) buffer

theorem aggregateTotals_count_one (fam : MetricFamily) (base : MetricRecord)
    (mgl : List String) (buffer : List MetricRecord)
    (h : mgl.count fam.name = 1) :
    aggregateTotals fam base mgl buffer = totalStep fam base buffer fam.name := by
  unfold aggregateTotals
  induction mgl generalizing buffer with
  | nil => simp at h
  | cons v rest ih =>
    by_cases hv : v = fam.name
    · subst hv
      have hc : rest.count fam.name = 0 := by
        rw [List.count_cons_self] at h
        omega
      have hrest : fam.name ∉ rest := List.count_eq_zero.mp hc
      rw [List.foldl_cons]
      exact foldl_totalStep_of_not_mem fam base rest hrest _
    · rw [List.foldl_cons, totalStep_no_match fam base buffer v hv]
      apply ih
      rw [List.count_cons_of_ne (fun e => hv e.symm)] at h
      exact h

theorem aggregateTotals_gauge (fam : MetricFamily) (base : MetricRecord)
    (hty : fam.type = .GAUGE) (mgl : List String) (buffer : List MetricRecord) :
    aggregateTotals fam base mgl buffer = buffer := by
  unfold aggregateTotals
  induction mgl generalizing buffer with
  | nil => rfl
  | cons v rest ih =>
    rw [List.foldl_cons, totalStep_gauge fam base buffer v hty]
    exact ih buffer

theorem totalStep_extra (fam : MetricFamily) (base : MetricRecord)
    (buf : List MetricRecord) (v : String) :
    ∃ ex, totalStep fam base buf v = buf ++ ex := by
  unfold totalStep
  by_cases hv : v = fam.name
  · rw [if_pos hv]
    cases fam.type
    · exact ⟨_, rfl⟩
    · exact ⟨[], by simp⟩
    · exact ⟨_, rfl⟩
    · exact ⟨[], by simp⟩
    · exact ⟨[], by simp⟩
  · exact ⟨[], by rw [if_neg hv, List.append_nil]⟩

theorem aggregateTotals_extra (fam : MetricFamily) (base : MetricRecord)
    (mgl : List String) : ∀ buffer,
    ∃ ex, aggregateTotals fam base mgl buffer = buffer ++ ex := by
  induction mgl with
  | nil => intro buffer; exact ⟨[], by simp [aggregateTotals]⟩
  | cons v rest ih =>
    intro buffer
    obtain ⟨e0, he0⟩ := totalStep_extra fam base buffer v
    obtain ⟨e1, he1⟩ := ih (totalStep fam base buffer v)
    refine ⟨e0 ++ e1, ?_⟩
    unfold aggregateTotals at he1 ⊢
    rw [List.foldl_cons, he1, he0, List.append_assoc]

/-! ### Claims -/

/-- C4: a pass invoked with an empty requested-identifier list fails with the
configuration error before any endpoint lookup, download or parse (all three
collaborator call counters are zero), and the caller of `CollectMetrics`
gets back the original (empty) input list together with that error. -/
theorem C4_empty_request (c : PrometheusCollector)
    (cacheFn : List MetricRecord → Except String (List MetricRecord))
    (ord : SummaryOrder) (mgl : List String) (now : ℕ) :
    _collectMetrics c ord mgl now []
      = { records := [], error := some emptyMtsErr
          endpointCalls := 0, downloadCalls := 0, parseCalls := 0 }
    ∧ CollectMetrics c cacheFn ord mgl now [] = .failure [] emptyMtsErr :=
  ⟨rfl, rfl⟩

/-- C5: when the endpoint resolves but the download or the parse of the
snapshot fails, the pass degrades to an empty record list with no error
instead of propagating the failure. -/
theorem C5_transport_degrades (c : PrometheusCollector) (ord : SummaryOrder)
    (mgl : List String) (now : ℕ) (mt0 : MetricTypeReq)
    (rest : List MetricTypeReq) (endpoint : String)
    (hok : c.downloader.getEndpoint mt0.config = .ok endpoint)
    (hfail : (∃ de, c.downloader.getMetricsReader endpoint = .error de) ∨
      (∃ body, c.downloader.getMetricsReader endpoint = .ok body ∧
        ∃ pe, c.textParser body = .error pe)) :
    (_collectMetrics c ord mgl now (mt0 :: rest)).records = []
    ∧ (_collectMetrics c ord mgl now (mt0 :: rest)).error = none := by
  have hcol : ∃ e, collect c endpoint = .error e := by
    rcases hfail with ⟨de, hde⟩ | ⟨body, hb, pe, hpe⟩
    · exact ⟨"Unable to download metrics: " ++ de,
        by simp only [collect, hde]⟩
    · exact ⟨"Unable to parse metrics: " ++ pe,
        by simp only [collect, parseMetrics, hb, hpe]⟩
  obtain ⟨e, he⟩ := hcol
  constructor <;> simp [_collectMetrics, hok, he]

/-- Witness for C5: a collector whose download is refused yields a pass with
zero records and nil error. -/
def w5Col : PrometheusCollector :=
  { downloader :=
      { getEndpoint := fun _ => .ok "http://a/metrics",
        getMetricsReader := fun _ => .error "connection refused" },
    textParser := fun _ => .ok [] }

/-- Witness metric request for C5. -/
def w5Mt : MetricTypeReq :=
  { ns := ["hyperpilot", "prometheus", "x"], config := [] }

/-- Witness theorem for C5 at a concrete failing downloader. -/
theorem C5_transport_degrades_witness :
    (_collectMetrics w5Col id [] 0 [w5Mt]).records = []
    ∧ (_collectMetrics w5Col id [] 0 [w5Mt]).error = none :=
  C5_transport_degrades w5Col id [] 0 w5Mt [] "http://a/metrics" rfl
    (Or.inl ⟨"connection refused", rfl⟩)

/-- C2: for a COUNTER family whose name occurs exactly once in the
configured multi-group name set, the pass appends for the corresponding
requested identifier exactly one total record, tagged exactly
total = TOTAL, whose value is the sum of the values of all records decoded
for that family in this pass. -/
theorem C2_counter_total (ord : SummaryOrder) (fams : Snapshot)
    (mgl : List String) (now : ℕ) (mt : MetricTypeReq)
    (hty : (familyFor fams mt).type = .COUNTER)
    (honce : mgl.count (familyFor fams mt).name = 1) :
    processRequest ord fams mgl now mt
      = sampleRecords ord fams now mt ++
          [{ baseRecord fams now mt with
              data := ((sampleRecords ord fams now mt).map (fun r => r.data)).sum
              tags := [("total", "TOTAL")] }] := by
  unfold processRequest
  rw [aggregateTotals_count_one _ _ _ _ honce]
  unfold totalStep
  rw [if_pos rfl]
  rw [hty]
  rfl

/-- Concrete COUNTER family for the C2 witness, with samples 3.0, 4.5, 0.5. -/
def w2Fam : MetricFamily :=
  { name := "requests_total", help := "reqs", type := .COUNTER,
    metric :=
      [ { label := [⟨"handler", "a"⟩], gauge := 0, counter := 3,
          summary := { sampleCount := 0, sampleSum := 0, quantile := [] } },
        { label := [⟨"handler", "b"⟩], gauge := 0, counter := 4.5,
          summary := { sampleCount := 0, sampleSum := 0, quantile := [] } },
        { label := [⟨"handler", "c"⟩], gauge := 0, counter := 0.5,
          summary := { sampleCount := 0, sampleSum := 0, quantile := [] } } ] }

/-- Concrete snapshot for the C2 witness. -/
def w2Fams : Snapshot := [("requests_total", w2Fam)]

/-- Concrete request for the C2 witness. -/
def w2Mt : MetricTypeReq :=
  { ns := ["hyperpilot", "prometheus", "requests_total"], config := [] }

/-- Witness theorem for C2: samples 3.0, 4.5, 0.5 yield one total record of
value 8.0 tagged total = TOTAL. -/
theorem C2_counter_total_witness :
    processRequest id w2Fams ["requests_total"] 7 w2Mt
      = sampleRecords id w2Fams 7 w2Mt ++
          [{ baseRecord w2Fams 7 w2Mt with
              data := 8
              tags := [("total", "TOTAL")] }] := by
  have h := C2_counter_total id w2Fams ["requests_total"] 7 w2Mt rfl (by decide)
  have hsum : ((sampleRecords id w2Fams 7 w2Mt).map (fun r => r.data)).sum
      = (8 : ℚ) := by
    show ((3 : ℚ) + ((4.5 : ℚ) + ((0.5 : ℚ) + 0))) = 8
    norm_num
  rw [hsum] at h
  exact h

/-- C3: for a SUMMARY family whose name occurs exactly once in the
configured multi-group name set, the pass appends for the corresponding
requested identifier exactly two total records: a total count tagged
total = TOTAL, summary = count whose value is the sum of the values of the
decoded records tagged summary = count, and a total sum tagged
total = TOTAL, summary = sum whose value is the sum of the values of the
records tagged summary = sum; records with any other summary tag (the
quantile records) contribute to neither, and no further total is produced. -/
theorem C3_summary_totals (ord : SummaryOrder) (fams : Snapshot)
    (mgl : List String) (now : ℕ) (mt : MetricTypeReq)
    (hty : (familyFor fams mt).type = .SUMMARY)
    (honce : mgl.count (familyFor fams mt).name = 1) :
    processRequest ord fams mgl now mt
      = sampleRecords ord fams now mt ++
          [{ baseRecord fams now mt with
              data := (((sampleRecords ord fams now mt).filter
                  (fun r => tagGet r.tags "summary" == "count")).map
                  (fun r => r.data)).sum
              tags := [("total", "TOTAL"), ("summary", "count")] },
           { baseRecord fams now mt with
              data := (((sampleRecords ord fams now mt).filter
                  (fun r => tagGet r.tags "summary" == "sum")).map
                  (fun r => r.data)).sum
              tags := [("total", "TOTAL"), ("summary", "sum")] }] := by
  unfold processRequest
  rw [aggregateTotals_count_one _ _ _ _ honce]
  unfold totalStep
  rw [if_pos rfl]
  rw [hty]
  rfl

/-- Concrete SUMMARY family for the C3 witness: samples with count 10, sum
100 and count 5, sum 20. -/
def w3Fam : MetricFamily :=
  { name := "latency", help := "lat", type := .SUMMARY,
    metric :=
      [ { label := [⟨"app", "x"⟩], gauge := 0, counter := 0,
          summary := { sampleCount := 10, sampleSum := 100, quantile := [] } },
        { label := [⟨"app", "y"⟩], gauge := 0, counter := 0,
          summary := { sampleCount := 5, sampleSum := 20, quantile := [] } } ] }

/-- Concrete snapshot for the C3 witness. -/
def w3Fams : Snapshot := [("latency", w3Fam)]

/-- Concrete request for the C3 witness. -/
def w3Mt : MetricTypeReq :=
  { ns := ["hyperpilot", "prometheus", "latency"], config := [] }

/-- Witness theorem for C3: the two samples yield a total count of 15 and a
total sum of 120, and no quantile total. -/
theorem C3_summary_totals_witness :
    processRequest id w3Fams ["latency"] 2 w3Mt
      = sampleRecords id w3Fams 2 w3Mt ++
          [{ baseRecord w3Fams 2 w3Mt with
              data := 15
              tags := [("total", "TOTAL"), ("summary", "count")] },
           { baseRecord w3Fams 2 w3Mt with
              data := 120
              tags := [("total", "TOTAL"), ("summary", "sum")] }] := by
  have h := C3_summary_totals id w3Fams ["latency"] 2 w3Mt rfl (by decide)
  have hc : (((sampleRecords id w3Fams 2 w3Mt).filter
      (fun r => tagGet r.tags "summary" == "count")).map
      (fun r => r.data)).sum = (15 : ℚ) := by
    show (((10 : ℕ) : ℚ) + (((5 : ℕ) : ℚ) + 0)) = 15
    push_cast
    norm_num
  have hs : (((sampleRecords id w3Fams 2 w3Mt).filter
      (fun r => tagGet r.tags "summary" == "sum")).map
      (fun r => r.data)).sum = (120 : ℚ) := by
    show ((100 : ℚ) + ((20 : ℚ) + 0)) = 120
    norm_num
  rw [hc, hs] at h
  exact h

/-- C6: a requested identifier whose last namespace segment names a family
absent from the parsed snapshot contributes zero records, the pass returns
no error, and the full record list is still the concatenation over all
requested identifiers (so the remaining identifiers are processed
normally).  The hypothesis that the empty string is not a configured
multi-group name reflects that the configured set holds family names. -/
theorem C6_absent_family (c : PrometheusCollector) (ord : SummaryOrder)
    (mgl : List String) (now : ℕ) (mt0 : MetricTypeReq)
    (rest : List MetricTypeReq) (endpoint : String) (fams : Snapshot)
    (mtA : MetricTypeReq)
    (hok : c.downloader.getEndpoint mt0.config = .ok endpoint)
    (hcol : collect c endpoint = .ok fams)
    (habs : fams.lookup (mtA.ns.getLastD "") = none)
    (hmgl : "" ∉ mgl) :
    (_collectMetrics c ord mgl now (mt0 :: rest)).records
        = (mt0 :: rest).flatMap (processRequest ord fams mgl now)
    ∧ (_collectMetrics c ord mgl now (mt0 :: rest)).error = none
    ∧ processRequest ord fams mgl now mtA = [] := by
  have hfam : familyFor fams mtA = nilFamily := by
    unfold familyFor
    rw [habs]
    rfl
  have hbuf : sampleRecords ord fams now mtA = [] := by
    unfold sampleRecords
    rw [hfam]
    rfl
  refine ⟨?_, ?_, ?_⟩
  · simp [_collectMetrics, hok, hcol]
  · simp [_collectMetrics, hok, hcol]
  · unfold processRequest
    rw [hfam, hbuf]
    unfold aggregateTotals
    exact foldl_totalStep_of_not_mem nilFamily _ mgl hmgl []

/-- Concrete present family for the C6 witness. -/
def w6Fam : MetricFamily :=
  { name := "present", help := "", type := .COUNTER,
    metric := [ { label := [], gauge := 0, counter := 1,
                  summary := { sampleCount := 0, sampleSum := 0,
                               quantile := [] } } ] }

/-- Concrete snapshot for the C6 witness: only the family `present`. -/
def w6Fams : Snapshot := [("present", w6Fam)]

/-- Concrete collector for the C6 witness. -/
def w6Col : PrometheusCollector :=
  { downloader :=
      { getEndpoint := fun _ => .ok "http://a/metrics",
        getMetricsReader := fun _ => .ok "body" },
    textParser := fun _ => .ok w6Fams }

/-- Request for the present family in the C6 witness. -/
def w6MtP : MetricTypeReq :=
  { ns := ["hyperpilot", "prometheus", "present"], config := [] }

/-- Request for a family absent from the snapshot in the C6 witness. -/
def w6MtA : MetricTypeReq :=
  { ns := ["hyperpilot", "prometheus", "absent"], config := [] }

/-- Witness theorem for C6 at a concrete snapshot with one absent family. -/
theorem C6_absent_family_witness :
    (_collectMetrics w6Col id [] 0 (w6MtP :: [w6MtA])).records
        = (w6MtP :: [w6MtA]).flatMap (processRequest id w6Fams [] 0)
    ∧ (_collectMetrics w6Col id [] 0 (w6MtP :: [w6MtA])).error = none
    ∧ processRequest id w6Fams [] 0 w6MtA = [] :=
  C6_absent_family w6Col id [] 0 w6MtP [w6MtA] "http://a/metrics" w6Fams
    w6MtA rfl rfl rfl (by decide)

/-- C8: every record produced for a GAUGE family carries unit `B` when the
family name contains the substring `bytes`, and an empty (unset) unit
otherwise. -/
theorem C8_gauge_unit (ord : SummaryOrder) (fams : Snapshot)
    (mgl : List String) (now : ℕ) (mt : MetricTypeReq) (r : MetricRecord)
    (hty : (familyFor fams mt).type = .GAUGE)
    (hr : r ∈ processRequest ord fams mgl now mt) :
    r.unit = if containsSubstr (familyFor fams mt).name "bytes"
      then "B" else "" := by
  unfold processRequest at hr
  rw [aggregateTotals_gauge _ _ hty] at hr
  unfold sampleRecords at hr
  rw [List.mem_flatMap] at hr
  obtain ⟨mItem, _, hr⟩ := hr
  unfold decodeSample at hr
  simp only [hty, List.mem_singleton] at hr
  rw [hr]
  rfl

/-- Concrete GAUGE family whose name contains `bytes` for the C8 witness. -/
def w8Fam : MetricFamily :=
  { name := "memory_bytes", help := "m", type := .GAUGE,
    metric := [ { label := [⟨"host", "a"⟩], gauge := 12, counter := 0,
                  summary := { sampleCount := 0, sampleSum := 0,
                               quantile := [] } } ] }

/-- Concrete snapshot for the C8 witness. -/
def w8Fams : Snapshot := [("memory_bytes", w8Fam)]

/-- Concrete request for the C8 witness. -/
def w8Mt : MetricTypeReq :=
  { ns := ["hyperpilot", "prometheus", "memory_bytes"], config := [] }

/-- The record the C8 witness pass produces. -/
def w8Rec : MetricRecord :=
  { ns := ["hyperpilot", "prometheus", "memory_bytes"], timestamp := 3,
    description := "m", version := 1, unit := "B", data := 12,
    tags := [("host", "a")], type := .GAUGE }

/-- Witness theorem for C8 at a concrete gauge family named with `bytes`. -/
theorem C8_gauge_unit_witness :
    w8Rec.unit = if containsSubstr (familyFor w8Fams w8Mt).name "bytes"
      then "B" else "" :=
  C8_gauge_unit id w8Fams [] 3 w8Mt w8Rec rfl (by decide)

/-! ### Evaluation of quantile keys at concrete fractions -/

theorem truncPercent_half : truncPercent (1/2 : ℚ) = 50 := by
  rw [truncPercent_eq_floor _ (by norm_num), Int.floor_eq_iff]
  constructor <;> norm_num

theorem truncPercent_509 : truncPercent (509/1000 : ℚ) = 50 := by
  rw [truncPercent_eq_floor _ (by norm_num), Int.floor_eq_iff]
  constructor <;> norm_num

theorem quantKey_half : quantKey (1/2 : ℚ) = "quantile_50" := by
  unfold quantKey
  rw [truncPercent_half]
  rfl

theorem quantKey_509 : quantKey (509/1000 : ℚ) = "quantile_50" := by
  unfold quantKey
  rw [truncPercent_509]
  rfl

/-- C1 (amended): the records a SUMMARY sample decodes to contain exactly
one record tagged summary = count carrying the sample count, exactly one
record tagged summary = sum carrying the sample sum, and for every other
summary tag k exactly the record dictated by the last non-NaN quantile
whose truncated-percent key is k (none when no such quantile exists, so a
NaN quantile alone produces no record).  This holds for every iteration
order of the summary map. -/
theorem C1_summary_records (ord : SummaryOrder) (fam : MetricFamily)
    (base : MetricRecord) (mItem : Metric) (hty : fam.type = .SUMMARY)
    (hord : ∀ s, (ord s).Perm s) :
    (((decodeSample ord fam base mItem).filter
        (fun r => tagGet r.tags "summary" == "count")).map (fun r => r.data)
      = [((mItem.summary.sampleCount : ℚ))])
    ∧ (((decodeSample ord fam base mItem).filter
        (fun r => tagGet r.tags "summary" == "sum")).map (fun r => r.data)
      = [mItem.summary.sampleSum])
    ∧ ∀ k, k ≠ "count" → k ≠ "sum" →
        ((decodeSample ord fam base mItem).filter
          (fun r => tagGet r.tags "summary" == k)).map (fun r => r.data)
        = (lastQuantWith mItem.summary.quantile k).toList := by
  refine ⟨?_, ?_, ?_⟩
  · rw [decodeSummary_filter ord fam base mItem hty (hord _) "count",
      processSummary_lookup_count]
    rfl
  · rw [decodeSummary_filter ord fam base mItem hty (hord _) "sum",
      processSummary_lookup_sum]
    rfl
  · intro k hc hs
    rw [decodeSummary_filter ord fam base mItem hty (hord _) k,
      processSummary_lookup mItem k hc hs]

/-- Concrete SUMMARY sample for the C1 witness: one non-NaN quantile and
one NaN quantile. -/
def w1Metric : Metric :=
  { label := [⟨"app", "z"⟩], gauge := 0, counter := 0,
    summary := { sampleCount := 4, sampleSum := 7,
                 quantile := [ { quantile := 1/4, value := some 9 },
                               { quantile := 9/10, value := none } ] } }

/-- Concrete SUMMARY family for the C1 witness. -/
def w1Fam : MetricFamily :=
  { name := "lat", help := "", type := .SUMMARY, metric := [w1Metric] }

/-- Concrete base record for the C1 witness. -/
def w1Base : MetricRecord :=
  { ns := ["hyperpilot", "prometheus", "lat"], timestamp := 5,
    description := "", version := 1, unit := "", data := 0, tags := [],
    type := .SUMMARY }

/-- Witness theorem for C1 at a concrete summary sample. -/
theorem C1_summary_records_witness :
    (((decodeSample id w1Fam w1Base w1Metric).filter
        (fun r => tagGet r.tags "summary" == "count")).map (fun r => r.data)
      = [((w1Metric.summary.sampleCount : ℚ))])
    ∧ (((decodeSample id w1Fam w1Base w1Metric).filter
        (fun r => tagGet r.tags "summary" == "sum")).map (fun r => r.data)
      = [w1Metric.summary.sampleSum])
    ∧ ∀ k, k ≠ "count" → k ≠ "sum" →
        ((decodeSample id w1Fam w1Base w1Metric).filter
          (fun r => tagGet r.tags "summary" == k)).map (fun r => r.data)
        = (lastQuantWith w1Metric.summary.quantile k).toList :=
  C1_summary_records id w1Fam w1Base w1Metric rfl (fun s => List.Perm.refl s)

/-- Concrete SUMMARY sample refuting C1 as stated: the two distinct non-NaN
quantile fractions 0.5 and 0.509 truncate to the same integer percent. -/
def c1Metric : Metric :=
  { label := [], gauge := 0, counter := 0,
    summary := { sampleCount := 1, sampleSum := 2,
                 quantile := [ { quantile := 1/2, value := some 5 },
                               { quantile := 509/1000, value := some 7 } ] } }

/-- Concrete SUMMARY family for the C1 counterexample. -/
def c1Fam : MetricFamily :=
  { name := "lat", help := "", type := .SUMMARY, metric := [c1Metric] }

/-- Concrete base record for the C1 counterexample. -/
def c1Base : MetricRecord :=
  { ns := ["hyperpilot", "prometheus", "lat"], timestamp := 0,
    description := "", version := 1, unit := "", data := 0, tags := [],
    type := .SUMMARY }

/-- The summary map of the C1 counterexample sample: the colliding key
`quantile_50` holds only the later value 7. -/
theorem processSummary_c1 : processSummaryMetric c1Metric
    = [("count", ((1 : ℕ) : ℚ)), ("sum", 2), ("quantile_50", 7)] := by
  unfold processSummaryMetric c1Metric
  simp only [List.foldl_cons, List.foldl_nil, summaryStep]
  rw [quantKey_half, quantKey_509]
  rfl

/-- Counterexample to C1 as stated: the sample has two non-NaN quantiles but
the decoder produces only three records (not two plus one per non-NaN
quantile), and no record carries the earlier quantile value 5. -/
theorem C1_counterexample :
    (decodeSample id c1Fam c1Base c1Metric).length = 3
    ∧ (c1Metric.summary.quantile.filter (fun q => q.value.isSome)).length = 2
    ∧ ¬ (∃ r ∈ decodeSample id c1Fam c1Base c1Metric, r.data = 5) := by
  have hrecs : decodeSample id c1Fam c1Base c1Metric
      = (processSummaryMetric c1Metric).map (fun kv =>
          { c1Base with
              data := kv.2
              tags := mapInsert (getTagsOfMetric c1Metric) "summary" kv.1 }) :=
    rfl
  rw [processSummary_c1] at hrecs
  refine ⟨?_, ?_, ?_⟩
  · rw [hrecs]; rfl
  · rfl
  · rw [hrecs]
    rintro ⟨r, hm, hd⟩
    simp only [List.map_cons, List.map_nil, List.mem_cons,
      List.not_mem_nil, or_false] at hm
    rcases hm with h | h | h <;> rw [h] at hd <;> simp at hd

/-- C10: when a SUMMARY sample holds two distinct non-NaN quantile fractions
that truncate to the same integer percent, the decoder produces a single
record for that key carrying the value of the later quantile, and the total
number of records is strictly smaller than two plus the number of non-NaN
quantiles. -/
theorem C10_percent_collision (ord : SummaryOrder) (fam : MetricFamily)
    (base : MetricRecord) (mItem : Metric) (f1 f2 v1 v2 : ℚ)
    (hty : fam.type = .SUMMARY)
    (hord : ∀ s, (ord s).Perm s)
    (hq : mItem.summary.quantile
      = [{ quantile := f1, value := some v1 },
         { quantile := f2, value := some v2 }])
    (hne : f1 ≠ f2)
    (hkey : truncPercent f1 = truncPercent f2) :
    (((decodeSample ord fam base mItem).filter
        (fun r => tagGet r.tags "summary" == quantKey f1)).map
        (fun r => r.data) = [v2])
    ∧ (decodeSample ord fam base mItem).length = 3
    ∧ (decodeSample ord fam base mItem).length
        < 2 + (mItem.summary.quantile.filter (fun q => q.value.isSome)).length := by
  have hkq : quantKey f2 = quantKey f1 := by
    unfold quantKey
    rw [hkey]
  have hlast : lastQuantWith mItem.summary.quantile (quantKey f1) = some v2 := by
    rw [hq]
    unfold lastQuantWith
    simp [projStep, hkq]
  have hpm : processSummaryMetric mItem
      = mapInsert (mapInsert (mapInsert (mapInsert
          ([] : List (String × ℚ)) "count" ((mItem.summary.sampleCount : ℚ)))
          "sum" mItem.summary.sampleSum) (quantKey f1) v1) (quantKey f1) v2 := by
    unfold processSummaryMetric
    rw [hq]
    simp only [List.foldl_cons, List.foldl_nil, summaryStep]
    rw [hkq]
  rw [mapInsert_mapInsert_same] at hpm
  have hb1 : (quantKey f1 == "count") = false := by
    simp [quantKey_ne_count f1]
  have hb2 : (quantKey f1 == "sum") = false := by
    simp [quantKey_ne_sum f1]
  have hlen3 : (processSummaryMetric mItem).length = 3 := by
    rw [hpm]
    simp [mapInsert, hb1, hb2]
  refine ⟨?_, ?_, ?_⟩
  · rw [decodeSummary_filter ord fam base mItem hty (hord _) (quantKey f1),
      processSummary_lookup mItem (quantKey f1) (quantKey_ne_count f1)
        (quantKey_ne_sum f1), hlast]
    rfl
  · rw [decodeSummary_length ord fam base mItem hty,
      (hord (processSummaryMetric mItem)).length_eq, hlen3]
  · rw [decodeSummary_length ord fam base mItem hty,
      (hord (processSummaryMetric mItem)).length_eq, hlen3, hq]
    simp

/-- Concrete SUMMARY sample for the C10 witness, with colliding quantile
fractions 0.5 and 0.509. -/
def w10Metric : Metric :=
  { label := [], gauge := 0, counter := 0,
    summary := { sampleCount := 1, sampleSum := 2,
                 quantile := [ { quantile := 1/2, value := some 5 },
                               { quantile := 509/1000, value := some 7 } ] } }

/-- Concrete SUMMARY family for the C10 witness. -/
def w10Fam : MetricFamily :=
  { name := "lat", help := "", type := .SUMMARY, metric := [w10Metric] }

/-- Concrete base record for the C10 witness. -/
def w10Base : MetricRecord :=
  { ns := ["hyperpilot", "prometheus", "lat"], timestamp := 0,
    description := "", version := 1, unit := "", data := 0, tags := [],
    type := .SUMMARY }

/-- Witness theorem for C10 at the colliding fractions 0.5 and 0.509. -/
theorem C10_percent_collision_witness :
    (((decodeSample id w10Fam w10Base w10Metric).filter
        (fun r => tagGet r.tags "summary" == quantKey (1/2 : ℚ))).map
        (fun r => r.data) = [7])
    ∧ (decodeSample id w10Fam w10Base w10Metric).length = 3
    ∧ (decodeSample id w10Fam w10Base w10Metric).length
        < 2 + (w10Metric.summary.quantile.filter
            (fun q => q.value.isSome)).length :=
  C10_percent_collision id w10Fam w10Base w10Metric (1/2) (509/1000) 5 7
    rfl (fun s => List.Perm.refl s) rfl (by norm_num)
    (by rw [truncPercent_half, truncPercent_509])

/-- C7 (amended): the pass record list is the concatenation over requested
identifiers in request order; within one identifier the decoded records come
first, in family sample order, with every total record appended after them;
within one SUMMARY sample the count, sum and quantile records appear in the
iteration order of the summary map, which is a permutation of its entries
that Go leaves unspecified. -/
theorem C7_record_order (c : PrometheusCollector) (ord : SummaryOrder)
    (mgl : List String) (now : ℕ) (mt0 : MetricTypeReq)
    (rest : List MetricTypeReq) (endpoint : String) (fams : Snapshot)
    (hord : ∀ s, (ord s).Perm s)
    (hok : c.downloader.getEndpoint mt0.config = .ok endpoint)
    (hcol : collect c endpoint = .ok fams) :
    ((_collectMetrics c ord mgl now (mt0 :: rest)).records
        = (mt0 :: rest).flatMap (processRequest ord fams mgl now))
    ∧ (∀ mt : MetricTypeReq, ∃ totals : List MetricRecord,
        processRequest ord fams mgl now mt
          = sampleRecords ord fams now mt ++ totals)
    ∧ (∀ mt : MetricTypeReq, sampleRecords ord fams now mt
        = (familyFor fams mt).metric.flatMap
            (decodeSample ord (familyFor fams mt) (baseRecord fams now mt)))
    ∧ (∀ (fam : MetricFamily) (base : MetricRecord) (mItem : Metric),
        fam.type = .SUMMARY →
          ((decodeSample ord fam base mItem).map
              (fun r => tagGet r.tags "summary")).Perm
            ((processSummaryMetric mItem).map (fun kv => kv.1))) := by
  refine ⟨?_, ?_, ?_, ?_⟩
  · simp [_collectMetrics, hok, hcol]
  · intro mt
    exact aggregateTotals_extra _ _ mgl _
  · intro mt
    rfl
  · intro fam base mItem hty
    unfold decodeSample
    simp only [hty, List.map_map]
    have hfun : ((fun r : MetricRecord => tagGet r.tags "summary") ∘
        (fun kv : String × ℚ =>
          { base with
              data := kv.2
              tags := mapInsert (getTagsOfMetric mItem) "summary" kv.1 }))
        = fun kv : String × ℚ => kv.1 := by
      funext kv
      show tagGet (mapInsert (getTagsOfMetric mItem) "summary" kv.1) "summary"
        = kv.1
      unfold tagGet
      rw [lookup_mapInsert_self]
      rfl
    rw [hfun]
    exact (hord _).map _

/-- Concrete COUNTER family for the C7 witness. -/
def w7Fam : MetricFamily :=
  { name := "c", help := "", type := .COUNTER,
    metric := [ { label := [], gauge := 0, counter := 1,
                  summary := { sampleCount := 0, sampleSum := 0,
                               quantile := [] } } ] }

/-- Concrete snapshot for the C7 witness. -/
def w7Fams : Snapshot := [("c", w7Fam)]

/-- Concrete collector for the C7 witness. -/
def w7Col : PrometheusCollector :=
  { downloader :=
      { getEndpoint := fun _ => .ok "e",
        getMetricsReader := fun _ => .ok "b" },
    textParser := fun _ => .ok w7Fams }

/-- Concrete request for the C7 witness. -/
def w7Mt : MetricTypeReq :=
  { ns := ["hyperpilot", "prometheus", "c"], config := [] }

/-- Witness theorem for C7 at a concrete collector and snapshot. -/
theorem C7_record_order_witness :
    ((_collectMetrics w7Col id [] 0 (w7Mt :: [])).records
        = (w7Mt :: []).flatMap (processRequest id w7Fams [] 0))
    ∧ (∀ mt : MetricTypeReq, ∃ totals : List MetricRecord,
        processRequest id w7Fams [] 0 mt
          = sampleRecords id w7Fams 0 mt ++ totals)
    ∧ (∀ mt : MetricTypeReq, sampleRecords id w7Fams 0 mt
        = (familyFor w7Fams mt).metric.flatMap
            (decodeSample id (familyFor w7Fams mt) (baseRecord w7Fams 0 mt)))
    ∧ (∀ (fam : MetricFamily) (base : MetricRecord) (mItem : Metric),
        fam.type = .SUMMARY →
          ((decodeSample id fam base mItem).map
              (fun r => tagGet r.tags "summary")).Perm
            ((processSummaryMetric mItem).map (fun kv => kv.1))) :=
  C7_record_order w7Col id [] 0 w7Mt [] "e" w7Fams
    (fun s => List.Perm.refl s) rfl rfl

/-- Concrete SUMMARY sample for the C7 counterexample. -/
def c7Metric : Metric :=
  { label := [], gauge := 0, counter := 0,
    summary := { sampleCount := 1, sampleSum := 2,
                 quantile := [ { quantile := 1/2, value := some 3 } ] } }

/-- Concrete SUMMARY family for the C7 counterexample. -/
def c7Fam : MetricFamily :=
  { name := "lat2", help := "", type := .SUMMARY, metric := [c7Metric] }

/-- Concrete snapshot for the C7 counterexample. -/
def c7Fams : Snapshot := [("lat2", c7Fam)]

/-- Concrete collector for the C7 counterexample. -/
def c7Col : PrometheusCollector :=
  { downloader :=
      { getEndpoint := fun _ => .ok "e",
        getMetricsReader := fun _ => .ok "b" },
    textParser := fun _ => .ok c7Fams }

/-- Concrete request for the C7 counterexample. -/
def c7Mt : MetricTypeReq :=
  { ns := ["hyperpilot", "prometheus", "lat2"], config := [] }

/-- The summary map of the C7 counterexample sample. -/
theorem processSummary_c7 : processSummaryMetric c7Metric
    = [("count", ((1 : ℕ) : ℚ)), ("sum", 2), ("quantile_50", 3)] := by
  unfold processSummaryMetric c7Metric
  simp only [List.foldl_cons, List.foldl_nil, summaryStep]
  rw [quantKey_half]
  rfl

/-- Counterexample to C7 as stated: under the (realizable) reversed map
iteration order the records of one SUMMARY sample come out as quantile, sum,
count — not as count, sum, quantiles — so the claimed emission order is not
guaranteed by the code. -/
theorem C7_counterexample :
    ((_collectMetrics c7Col List.reverse [] 0 [c7Mt]).records.map
        (fun r => tagGet r.tags "summary"))
      = ["quantile_50", "sum", "count"]
    ∧ (["quantile_50", "sum", "count"] : List String)
        ≠ ["count", "sum", "quantile_50"]
    ∧ (∀ s : List (String × ℚ), (List.reverse s).Perm s) := by
  refine ⟨?_, by decide, fun s => s.reverse_perm⟩
  have h0 : (_collectMetrics c7Col List.reverse [] 0 [c7Mt]).records
      = ((List.reverse (processSummaryMetric c7Metric)).map (fun kv =>
          { baseRecord c7Fams 0 c7Mt with
              data := kv.2
              tags := mapInsert (getTagsOfMetric c7Metric) "summary" kv.1 }))
        ++ [] := rfl
  rw [h0, processSummary_c7]
  rfl

/-- Helper for C9: a list is a prefix of itself. -/
theorem isPrefixOf_self (p : List Char) : p.isPrefixOf p = true := by
  induction p with
  | nil => rfl
  | cons c r ih => simp [List.isPrefixOf, ih]

/-- Helper for C9: a pattern occurs in any list that ends with it. -/
theorem listContains_append_self (p h : List Char) :
    listContains p (h ++ p) = true := by
  induction h with
  | nil =>
    cases p with
    | nil => rfl
    | cons c r => simp [listContains, isPrefixOf_self]
  | cons c hs ih => simp [listContains, ih]

/-- C9 (amended): on success, GetEndpoint returns the configured address
unchanged when it already contains the substring /metrics anywhere, and
otherwise appends /metrics; the result therefore always contains /metrics
as a substring, but need not end with it. -/
theorem C9_endpoint_normalization (config : Config) (address : String)
    (hget : configGetString config "endpoint" = .ok address) :
    GetEndpoint config
      = .ok (if containsSubstr address "/metrics" then address
             else address ++ "/metrics")
    ∧ ∀ res, GetEndpoint config = .ok res →
        containsSubstr res "/metrics" = true := by
  have hge : GetEndpoint config
      = .ok (if containsSubstr address "/metrics" then address
             else address ++ "/metrics") := by
    unfold GetEndpoint
    rw [hget]
    by_cases h : containsSubstr address "/metrics" <;> simp [h]
  refine ⟨hge, ?_⟩
  intro res hres
  rw [hge] at hres
  simp only [Except.ok.injEq] at hres
  by_cases h : containsSubstr address "/metrics"
  · rw [if_pos h] at hres
    rw [← hres]
    exact h
  · rw [if_neg h] at hres
    rw [← hres]
    unfold containsSubstr
    rw [String.data_append]
    exact listContains_append_self _ _

/-- Witness theorem for C9 at a concrete configuration. -/
theorem C9_endpoint_normalization_witness :
    GetEndpoint [("endpoint", "http://h")]
      = .ok (if containsSubstr "http://h" "/metrics" then "http://h"
             else "http://h" ++ "/metrics")
    ∧ ∀ res, GetEndpoint [("endpoint", "http://h")] = .ok res →
        containsSubstr res "/metrics" = true :=
  C9_endpoint_normalization [("endpoint", "http://h")] "http://h" rfl

/-- Counterexample to C9 as stated: an address containing /metrics in the
middle is returned unchanged and does not end with /metrics. -/
theorem C9_counterexample :
    GetEndpoint [("endpoint", "http://host/metricsX")]
      = .ok "http://host/metricsX"
    ∧ strEndsWith "http://host/metricsX" "/metrics" = false :=
  ⟨rfl, rfl⟩

end SnapProm
